import Mathlib

/-!
# Day-trading API: a verification development

Shallow embedding of the two servers of the repository:

* `server.js`: the in-memory variant (`portfolio` and `trades` arrays, the
  `GET /portfolio`, `GET /trades`, `POST /trades` handlers and `updatePortfolio`);
* `server-harperdb.js`: the remote-store variant (`POST /trades` and
  `updatePortfolioInDB`, every store access being one `harperDBRequest`).

Conventions of the embedding.

* A JavaScript number is a `JSNum`: an exact rational, `NaN`, `+Infinity` or
  `-Infinity`.  Rounding and overflow of IEEE doubles are abstracted (finite
  values are exact), and `-0` is identified with `0`.
* A value of the JSON request body is a `JVal`; a property that is absent from
  the body is `none` (JavaScript `undefined`).
* Global mutable arrays become an explicit `State` that the handlers pass on.
* The clock (`new Date()`, `Date.now()`) and the fate of each store request
  are inputs of the handlers.
* `toUpperCase` maps Basic Latin itself and takes the upper-case mapping of all
  other code points from a `CaseTable`, an input of the handlers.
-/

namespace Trading

/-! ## JavaScript numbers -/

/-- A JavaScript number: a finite value (kept exact), `NaN`, `+Infinity`, `-Infinity`. -/
inductive JSNum where
  | fin (q : ℚ)
  | nan
  | pinf
  | ninf
  deriving DecidableEq

namespace JSNum

/-- JavaScript `a + b`. -/
def add : JSNum → JSNum → JSNum
  | fin a, fin b => fin (a + b)
  | nan, _ => nan
  | _, nan => nan
  | pinf, ninf => nan
  | ninf, pinf => nan
  | pinf, _ => pinf
  | _, pinf => pinf
  | ninf, _ => ninf
  | _, ninf => ninf

/-- Sign-directed infinity: the product or quotient of an infinity of sign `pos`
with a finite factor `q` (`NaN` never arises here, the caller excludes `q = 0`
for products). -/
def infTimes (pos : Bool) (q : ℚ) : JSNum :=
  if decide (0 ≤ q) = pos then pinf else ninf

/-- JavaScript `a * b`. -/
def mul : JSNum → JSNum → JSNum
  | fin a, fin b => fin (a * b)
  | nan, _ => nan
  | _, nan => nan
  | pinf, pinf => pinf
  | ninf, ninf => pinf
  | pinf, ninf => ninf
  | ninf, pinf => ninf
  | pinf, fin b => if b = 0 then nan else infTimes true b
  | ninf, fin b => if b = 0 then nan else infTimes false b
  | fin a, pinf => if a = 0 then nan else infTimes true a
  | fin a, ninf => if a = 0 then nan else infTimes false a

/-- JavaScript `a / b` (a zero divisor is `+0`). -/
def div : JSNum → JSNum → JSNum
  | fin a, fin b =>
      if b = 0 then (if a = 0 then nan else if 0 < a then pinf else ninf)
      else fin (a / b)
  | nan, _ => nan
  | _, nan => nan
  | fin _, pinf => fin 0
  | fin _, ninf => fin 0
  | pinf, fin b => infTimes true b
  | ninf, fin b => infTimes false b
  | pinf, pinf => nan
  | pinf, ninf => nan
  | ninf, pinf => nan
  | ninf, ninf => nan

instance : Add JSNum := ⟨add⟩
instance : Mul JSNum := ⟨mul⟩
instance : Div JSNum := ⟨div⟩
instance : Zero JSNum := ⟨fin 0⟩

/-- JavaScript `a > 0`. -/
def gtZero : JSNum → Bool
  | fin q => decide (0 < q)
  | pinf => true
  | _ => false

end JSNum

/-! ## `server.js`: data -/

/-- An element of the `portfolio` array. -/
structure Position where
  symbol : String
  quantity : JSNum
  avgPrice : JSNum
  deriving DecidableEq

/-- An element of the `trades` array; `type` is the field the source calls `type`. -/
structure Trade where
  id : Nat
  symbol : String
  type : String
  quantity : JSNum
  price : JSNum
  date : String
  deriving DecidableEq

/-- The two module-level arrays of `server.js`. -/
structure State where
  portfolio : List Position
  trades : List Trade
  deriving DecidableEq

/-- The arrays as `server.js` initialises them. -/
def initialState : State where
  portfolio :=
    [ ⟨"AAPL", .fin 10, .fin 150⟩,
      ⟨"TSLA", .fin 5, .fin 250⟩,
      ⟨"MSFT", .fin 8, .fin 300⟩ ]
  trades :=
    [ ⟨1, "AAPL", "BUY", .fin 10, .fin 150, "2025-07-20"⟩,
      ⟨2, "TSLA", "BUY", .fin 5, .fin 250, "2025-07-21"⟩ ]

/-! ## `server.js`: `updatePortfolio` -/

/-- The assignment to `existingPosition.quantity` and `existingPosition.avgPrice`:
the first element of the array whose symbol is the trade's (the one `find`
returned) is updated in place. -/
def applyBuyToExisting (trade : Trade) : List Position → List Position
  | [] => []
  | p :: rest =>
      if p.symbol = trade.symbol then
        let totalValue := (p.quantity * p.avgPrice) + (trade.quantity * trade.price)
        let newQuantity := p.quantity + trade.quantity
        let newAvgPrice := totalValue / newQuantity
        { p with quantity := newQuantity, avgPrice := newAvgPrice } :: rest
      else p :: applyBuyToExisting trade rest

/-- The function `updatePortfolio(trade)` of `server.js`, on the `portfolio` array. -/
def updatePortfolio (portfolio : List Position) (trade : Trade) : List Position :=
  let existingPosition := portfolio.find? (fun p => p.symbol = trade.symbol)
  if trade.type = "BUY" then
    if existingPosition.isSome then
      applyBuyToExisting trade portfolio
    else
      portfolio ++ [{ symbol := trade.symbol, quantity := trade.quantity, avgPrice := trade.price }]
  else
    portfolio

/-! ## The JavaScript built-ins the handlers call -/

/-- The white space and line terminator code points that `parseInt` and
`parseFloat` skip at the start of their argument. -/
def isStrWhiteSpaceChar (c : Char) : Bool :=
  [0x9, 0xA, 0xB, 0xC, 0xD, 0x20, 0xA0, 0x1680, 0x2028, 0x2029, 0x202F, 0x205F, 0x3000,
    0xFEFF].contains c.toNat || (0x2000 ≤ c.toNat && c.toNat ≤ 0x200A)

/-- The value of `c` as a digit of the given radix (10 or 16), if it is one. -/
def digitValue (radix : Nat) (c : Char) : Option Nat :=
  if '0' ≤ c ∧ c ≤ '9' then some (c.toNat - '0'.toNat)
  else if radix = 16 ∧ 'a' ≤ c ∧ c ≤ 'f' then some (c.toNat - 'a'.toNat + 10)
  else if radix = 16 ∧ 'A' ≤ c ∧ c ≤ 'F' then some (c.toNat - 'A'.toNat + 10)
  else none

/-- The longest prefix of digits of the given radix (as digit values) and what follows it. -/
def takeDigits (radix : Nat) : List Char → List Nat × List Char
  | [] => ([], [])
  | c :: cs =>
      match digitValue radix c with
      | some d => let r := takeDigits radix cs; (d :: r.1, r.2)
      | none => ([], c :: cs)

/-- The number a list of digit values denotes in the given radix. -/
def natOfDigits (radix : Nat) (ds : List Nat) : Nat :=
  ds.foldl (fun acc d => acc * radix + d) 0

/-- An optional leading sign: whether it is `-`, and the rest. -/
def takeSign : List Char → Bool × List Char
  | '-' :: cs => (true, cs)
  | '+' :: cs => (false, cs)
  | cs => (false, cs)

/-- The built-in `parseInt(string)` without a radix argument, on a string. -/
def parseIntString (s : String) : JSNum :=
  let trimmed := s.toList.dropWhile isStrWhiteSpaceChar
  let signed := takeSign trimmed
  let radixed : Nat × List Char :=
    match signed.2 with
    | '0' :: 'x' :: cs => (16, cs)
    | '0' :: 'X' :: cs => (16, cs)
    | cs => (10, cs)
  let digits := (takeDigits radixed.1 radixed.2).1
  if digits = [] then .nan
  else
    let mathInt : Int := natOfDigits radixed.1 digits
    .fin (if signed.1 then -mathInt else mathInt : Int)

/-- The built-in `parseFloat(string)` on a string: the longest prefix that is a
decimal literal (`Infinity`, digits with an optional fraction and exponent). -/
def parseFloatString (s : String) : JSNum :=
  let trimmed := s.toList.dropWhile isStrWhiteSpaceChar
  let signed := takeSign trimmed
  if "Infinity".toList.isPrefixOf signed.2 then (if signed.1 then .ninf else .pinf)
  else
    let intPart := takeDigits 10 signed.2
    let fracPart : List Nat × List Char :=
      match intPart.2 with
      | '.' :: cs => takeDigits 10 cs
      | cs => ([], cs)
    if intPart.1 = [] ∧ fracPart.1 = [] then .nan
    else
      let mantissa : ℚ :=
        (natOfDigits 10 intPart.1 : ℚ) + (natOfDigits 10 fracPart.1 : ℚ) / 10 ^ fracPart.1.length
      let scaled : ℚ :=
        match fracPart.2 with
        | c :: cs =>
            if c = 'e' ∨ c = 'E' then
              let expSigned := takeSign cs
              let expDigits := (takeDigits 10 expSigned.2).1
              if expDigits = [] then mantissa
              else if expSigned.1 then mantissa / 10 ^ natOfDigits 10 expDigits
              else mantissa * 10 ^ natOfDigits 10 expDigits
            else mantissa
        | [] => mantissa
      .fin (if signed.1 then -scaled else scaled)

/-- The first decimal digit of a positive natural number; `fuel` bounds the
number of divisions by ten (`n` itself is enough). -/
def leadingDigit : Nat → Nat → Nat
  | 0, n => n
  | fuel + 1, n => if n < 10 then n else leadingDigit fuel (n / 10)

/-- The first non-zero decimal digit of a rational `0 < a < 1`; `fuel` bounds
the number of multiplications by ten (the denominator of `a` is enough). -/
def firstSignificantDigit : Nat → ℚ → Nat
  | 0, a => (a.num / a.den).toNat
  | fuel + 1, a => if 1 ≤ a then (a.num / a.den).toNat else firstSignificantDigit fuel (a * 10)

/-- The built-in `parseInt(number)`: the number is first converted to a string.
A value with `1e-6 ≤ |q| < 1e21` prints in plain decimal notation, of which
`parseInt` reads the integer part; any other non-zero value prints in exponent
notation, of which `parseInt` reads the leading digit only. -/
def parseIntNumber (q : ℚ) : JSNum :=
  if q = 0 then .fin 0
  else
    let a : ℚ := if q < 0 then -q else q
    let integerPart : Nat := (a.num / a.den).toNat
    let magnitude : Nat :=
      if (10 : ℚ) ^ 21 ≤ a then leadingDigit integerPart integerPart
      else if a < 1 / (10 : ℚ) ^ 6 then firstSignificantDigit a.den a
      else integerPart
    .fin (if q < 0 then -(magnitude : Int) else (magnitude : Int) : Int)

/-- A value of the parsed JSON body.  An array or object is an `object`; all the
handlers do with one is convert it to a string, so it carries the result of that
conversion (`none` when the conversion throws a `TypeError`). -/
inductive JVal where
  | null
  | bool (b : Bool)
  | num (q : ℚ)
  | str (s : String)
  | object (toStr : Option String)
  deriving DecidableEq

/-- JavaScript truthiness, as tested by `!x`; `none` is `undefined`. -/
def truthy : Option JVal → Bool
  | none => false
  | some .null => false
  | some (.bool b) => b
  | some (.num q) => decide (q ≠ 0)
  | some (.str s) => decide (s ≠ "")
  | some (.object _) => true

/-- The built-in `parseInt(x)`; `none` when converting `x` to a string throws. -/
def parseInt : Option JVal → Option JSNum
  | some (.str s) => some (parseIntString s)
  | some (.num q) => some (parseIntNumber q)
  | some (.object (some s)) => some (parseIntString s)
  | some (.object none) => none
  | _ => some .nan

/-- The built-in `parseFloat(x)`; `none` when converting `x` to a string throws. -/
def parseFloat : Option JVal → Option JSNum
  | some (.str s) => some (parseFloatString s)
  | some (.num q) => some (.fin q)
  | some (.object (some s)) => some (parseFloatString s)
  | some (.object none) => none
  | _ => some .nan

/-- The upper-case mapping of the Unicode character database, which the
JavaScript runtime brings and the repository does not: for each code point the
code points that replace it (one, or several as for `ß`).  It is consulted
outside Basic Latin only. -/
abbrev CaseTable := Char → List Char

/-- A table that maps every code point to itself; used to evaluate the handlers
at inputs written in Basic Latin, where no table is consulted. -/
def basicLatin : CaseTable := fun c => [c]

/-- The upper-case form of one code point: `a`..`z` become `A`..`Z`, the rest of
Basic Latin is unchanged, any other code point is looked up in the table. -/
def upperCodePoint (table : CaseTable) (c : Char) : List Char :=
  if c.toNat < 128 then [Char.toUpper c] else table c

/-- The method `String.prototype.toUpperCase`: every code point is replaced by
its upper-case form. -/
def toUpperCase (table : CaseTable) (s : String) : String :=
  String.mk (s.toList.flatMap (upperCodePoint table))

/-- The method call `x.toUpperCase()`; `none` when it throws a `TypeError`
(only strings have the method). -/
def callToUpperCase (table : CaseTable) : Option JVal → Option String
  | some (.str s) => some (toUpperCase table s)
  | _ => none

/-! ## `server.js`: the handlers -/

/-- The body of a `POST /trades` request, destructured: `none` is an absent property. -/
structure Body where
  symbol : Option JVal
  type : Option JVal
  quantity : Option JVal
  price : Option JVal

/-- What a handler sends back. -/
inductive Response where
  | error (status : Nat) (error : String)
  | created (status : Nat) (message : String) (trade : Trade)
  | uncaught
  deriving DecidableEq

/-- The HTTP status of a response; an exception that escapes a handler is
answered 500 by the framework. -/
def Response.status : Response → Nat
  | .error st _ => st
  | .created st _ _ => st
  | .uncaught => 500

/-- The handler `app.post('/trades')` of `server.js`; `today` is
`new Date().toISOString().split('T')[0]`. -/
def postTrades (table : CaseTable) (today : String) (body : Body) (s : State) :
    Response × State :=
  if !truthy body.symbol || !truthy body.type || !truthy body.quantity || !truthy body.price then
    (.error 400 "Missing required fields: symbol, type, quantity, price", s)
  else if body.type ≠ some (.str "BUY") ∧ body.type ≠ some (.str "SELL") then
    (.error 400 "Type must be BUY or SELL", s)
  else
    match callToUpperCase table body.symbol, callToUpperCase table body.type,
        parseInt body.quantity, parseFloat body.price with
    | some symbol, some type, some quantity, some price =>
        let newTrade : Trade :=
          { id := s.trades.length + 1, symbol := symbol, type := type,
            quantity := quantity, price := price, date := today }
        let trades := s.trades ++ [newTrade]
        let portfolio := updatePortfolio s.portfolio newTrade
        (.created 201 "Trade recorded successfully" newTrade,
          { portfolio := portfolio, trades := trades })
    | _, _, _, _ => (.uncaught, s)

/-- The `totalValue` computed by `app.get('/portfolio')` of `server.js`. -/
def totalValue (portfolio : List Position) : JSNum :=
  portfolio.foldl (fun sum stock => sum + (stock.quantity * stock.avgPrice)) 0

/-- The handler `app.get('/portfolio')` of `server.js`: the array and `totalValue`. -/
def getPortfolio (s : State) : List Position × JSNum :=
  (s.portfolio, totalValue s.portfolio)

/-- The handler `app.get('/trades')` of `server.js`: the array as it is. -/
def getTrades (s : State) : List Trade :=
  s.trades

/-- The relation between a trade and the pair (quantity, price) it carries, for
a purchase of `sym` with a positive whole quantity and a positive price. -/
def IsBuyOf (sym : String) (t : Trade) (f : ℕ × ℚ) : Prop :=
  t.symbol = sym ∧ t.type = "BUY" ∧ t.quantity = .fin f.1 ∧ t.price = .fin f.2 ∧
    0 < f.1 ∧ 0 < f.2

/-- The states `POST /trades` of `server.js` can produce from the initial arrays. -/
inductive Reachable (table : CaseTable) : State → Prop where
  | init : Reachable table initialState
  | post (today : String) (body : Body) (s : State) :
      Reachable table s → Reachable table (postTrades table today body s).2

/-- The total value as the specification words it: the sum of
`quantity * avgPrice` over the positions whose quantity is greater than 0. -/
def specTotalValue (portfolio : List Position) : JSNum :=
  ((portfolio.filter (fun p => p.quantity.gtZero)).map
    (fun p => p.quantity * p.avgPrice)).sum

/-- The type of a request as the specification reads it: `BUY` or `SELL`
ignoring letter case. -/
def isBuyOrSellIgnoringCase (table : CaseTable) : Option JVal → Bool
  | some (.str t) => decide (toUpperCase table t = "BUY" ∨ toUpperCase table t = "SELL")
  | _ => false

/-! ## `server-harperdb.js`: the store -/

/-- A number as the store holds it: requests travel as JSON, which writes a
number that is not finite as `null` (`none`). -/
def storedNumber : JSNum → Option ℚ
  | .fin q => some q
  | _ => none

/-- A stored number read back and used in `*` or `+`: `null` counts as `0`. -/
def numberOfStored : Option ℚ → JSNum
  | some q => .fin q
  | none => .fin 0

/-- The trade object `POST /trades` of `server-harperdb.js` builds (`id` is a string). -/
structure TradeRecord where
  id : String
  symbol : String
  type : String
  quantity : JSNum
  price : JSNum
  date : String
  deriving DecidableEq

/-- A row of the table `trading.trades` (hash attribute `id`). -/
structure TradeRow where
  id : String
  symbol : String
  type : String
  quantity : Option ℚ
  price : Option ℚ
  date : String
  deriving DecidableEq

/-- A row of the table `trading.portfolio` (hash attribute `symbol`). -/
structure PositionRow where
  symbol : String
  quantity : Option ℚ
  avg_price : Option ℚ
  deriving DecidableEq

/-- The two tables of the remote store. -/
structure DB where
  trades : List TradeRow
  portfolio : List PositionRow
  deriving DecidableEq

/-- The JSON form of a trade object, as sent in `records: [trade]`. -/
def TradeRecord.toRow (t : TradeRecord) : TradeRow :=
  { id := t.id, symbol := t.symbol, type := t.type,
    quantity := storedNumber t.quantity, price := storedNumber t.price, date := t.date }

/-- The store operation `insert` on `trading.trades`: a record whose hash value
is already present is skipped, any other is added. -/
def insertTradeRow (row : TradeRow) (db : DB) : DB :=
  if db.trades.any (fun r => r.id = row.id) then db
  else { db with trades := db.trades ++ [row] }

/-- The query `SELECT * FROM trading.portfolio WHERE symbol = '<symbol>'`
(the meaning of the interpolated text for a symbol without a quote character). -/
def selectPosition (symbol : String) (db : DB) : List PositionRow :=
  db.portfolio.filter (fun r => r.symbol = symbol)

/-- A write request of `updatePortfolioInDB` on `trading.portfolio`. -/
inductive PositionWrite where
  | update (row : PositionRow)
  | insert (row : PositionRow)
  deriving DecidableEq

/-- The store operations `update` and `insert` on `trading.portfolio`: `update`
overwrites the row of that hash value if there is one, `insert` adds the row
unless the hash value is already present. -/
def applyPositionWrite : PositionWrite → DB → DB
  | .update row, db =>
      { db with portfolio := db.portfolio.map (fun r => if r.symbol = row.symbol then row else r) }
  | .insert row, db =>
      if db.portfolio.any (fun r => r.symbol = row.symbol) then db
      else { db with portfolio := db.portfolio ++ [row] }

/-! ## `server-harperdb.js`: `updatePortfolioInDB` and the handler -/

/-- The part of `updatePortfolioInDB` between its two store requests: from the
rows the `SELECT` returned, the write request to issue (none for a trade that
is not a `BUY`). -/
def positionWriteFor (trade : TradeRecord) (existingPosition : List PositionRow) :
    Option PositionWrite :=
  if trade.type = "BUY" then
    match existingPosition with
    | position :: _ =>
        let totalValue := (numberOfStored position.quantity * numberOfStored position.avg_price)
          + (trade.quantity * trade.price)
        let newQuantity := numberOfStored position.quantity + trade.quantity
        let newAvgPrice := totalValue / newQuantity
        some (.update { symbol := trade.symbol, quantity := storedNumber newQuantity,
                        avg_price := storedNumber newAvgPrice })
    | [] =>
        some (.insert { symbol := trade.symbol, quantity := storedNumber trade.quantity,
                        avg_price := storedNumber trade.price })
  else none

/-- Whether each of the store requests of one `POST /trades` succeeds; a request
that fails throws in `harperDBRequest` and leaves the store as it was. -/
structure Net where
  tradeInsert : Bool
  positionRead : Bool
  positionWrite : Bool

/-- The function `updatePortfolioInDB(trade)`: its `catch` logs a failed request
and returns normally. -/
def updatePortfolioInDB (net : Net) (trade : TradeRecord) (db : DB) : DB :=
  if net.positionRead then
    let existingPosition := selectPosition trade.symbol db
    match positionWriteFor trade existingPosition with
    | some write => if net.positionWrite then applyPositionWrite write db else db
    | none => db
  else db

/-- What the handler of `server-harperdb.js` sends back. -/
inductive DBResponse where
  | error (status : Nat) (error : String)
  | created (status : Nat) (message : String) (trade : TradeRecord)
  deriving DecidableEq

/-- The HTTP status of a response of `server-harperdb.js`. -/
def DBResponse.status : DBResponse → Nat
  | .error st _ => st
  | .created st _ _ => st

/-- The handler `app.post('/trades')` of `server-harperdb.js`; `now` is
`Date.now()` and `today` is `new Date().toISOString().split('T')[0]`. -/
def postTradesDB (table : CaseTable) (now : Nat) (today : String) (net : Net) (body : Body)
    (db : DB) : DBResponse × DB :=
  if !truthy body.symbol || !truthy body.type || !truthy body.quantity || !truthy body.price then
    (.error 400 "Missing required fields", db)
  else if body.type ≠ some (.str "BUY") ∧ body.type ≠ some (.str "SELL") then
    (.error 400 "Type must be BUY or SELL", db)
  else
    match callToUpperCase table body.symbol, callToUpperCase table body.type,
        parseInt body.quantity, parseFloat body.price with
    | some symbol, some type, some quantity, some price =>
        let trade : TradeRecord :=
          { id := toString now, symbol := symbol, type := type,
            quantity := quantity, price := price, date := today }
        if net.tradeInsert then
          let db1 := insertTradeRow trade.toRow db
          let db2 := updatePortfolioInDB net trade db1
          (.created 201 "Trade recorded successfully" trade, db2)
        else (.error 500 "Failed to record trade", db)
    | _, _, _, _ => (.error 500 "Failed to record trade", db)

/-! ## `server-harperdb.js`: two calls of `updatePortfolioInDB` in flight -/

/-- Where one call of `updatePortfolioInDB` stands: before its `SELECT`, between
the `SELECT` and the write (holding the rows read), or done. -/
inductive UpdateStage where
  | start
  | fetched (existingPosition : List PositionRow)
  | finished
  deriving DecidableEq

/-- One store request of a call of `updatePortfolioInDB` (all requests succeed). -/
def stepUpdate (trade : TradeRecord) : UpdateStage → DB → UpdateStage × DB
  | .start, db => (.fetched (selectPosition trade.symbol db), db)
  | .fetched existingPosition, db =>
      match positionWriteFor trade existingPosition with
      | some write => (.finished, applyPositionWrite write db)
      | none => (.finished, db)
  | .finished, db => (.finished, db)

/-- Two calls of `updatePortfolioInDB` whose store requests reach the store in
the order `schedule` gives (`false`: the next request of the first call,
`true`: of the second). -/
def runInterleaved (t1 t2 : TradeRecord) :
    List Bool → UpdateStage × UpdateStage × DB → UpdateStage × UpdateStage × DB
  | [], st => st
  | false :: rest, (s1, s2, db) =>
      let r := stepUpdate t1 s1 db
      runInterleaved t1 t2 rest (r.1, s2, r.2)
  | true :: rest, (s1, s2, db) =>
      let r := stepUpdate t2 s2 db
      runInterleaved t1 t2 rest (s1, r.1, r.2)

/-! ## Arithmetic of `JSNum` -/

theorem JSNum.fin_add_fin (a b : ℚ) : JSNum.fin a + JSNum.fin b = JSNum.fin (a + b) := rfl

theorem JSNum.fin_mul_fin (a b : ℚ) : JSNum.fin a * JSNum.fin b = JSNum.fin (a * b) := rfl

theorem JSNum.fin_div_fin (a b : ℚ) (hb : b ≠ 0) :
    JSNum.fin a / JSNum.fin b = JSNum.fin (a / b) := by
  show JSNum.div (JSNum.fin a) (JSNum.fin b) = JSNum.fin (a / b)
  simp [JSNum.div, hb]

theorem JSNum.zero_plus (x : JSNum) : (0 : JSNum) + x = x := by
  show JSNum.add (JSNum.fin 0) x = x
  cases x <;> simp [JSNum.add]

theorem JSNum.plus_assoc (x y z : JSNum) : x + y + z = x + (y + z) := by
  show JSNum.add (JSNum.add x y) z = JSNum.add x (JSNum.add y z)
  cases x <;> cases y <;> cases z <;> simp [JSNum.add, add_assoc]

/-! ## `updatePortfolio` on a run of purchases -/

theorem find?_symbol_none (sym : String) (portfolio : List Position)
    (hfresh : ∀ p ∈ portfolio, p.symbol ≠ sym) :
    portfolio.find? (fun p => p.symbol = sym) = none := by
  rw [List.find?_eq_none]
  intro p hp
  simpa using hfresh p hp

theorem applyBuyToExisting_append (trade : Trade) (portfolio : List Position) (pos : Position)
    (hfresh : ∀ p ∈ portfolio, p.symbol ≠ trade.symbol) (hpos : pos.symbol = trade.symbol) :
    applyBuyToExisting trade (portfolio ++ [pos]) =
      portfolio ++ [{ pos with
        quantity := pos.quantity + trade.quantity,
        avgPrice := ((pos.quantity * pos.avgPrice) + (trade.quantity * trade.price))
          / (pos.quantity + trade.quantity) }] := by
  induction portfolio with
  | nil => simp [applyBuyToExisting, hpos]
  | cons p rest ih =>
      have hp : p.symbol ≠ trade.symbol := hfresh p (List.mem_cons_self _ _)
      have hrest : ∀ r ∈ rest, r.symbol ≠ trade.symbol :=
        fun r hr => hfresh r (List.mem_cons_of_mem _ hr)
      simp [applyBuyToExisting, hp, ih hrest]

theorem updatePortfolio_first_buy (trade : Trade) (portfolio : List Position)
    (hfresh : ∀ p ∈ portfolio, p.symbol ≠ trade.symbol) (hbuy : trade.type = "BUY") :
    updatePortfolio portfolio trade =
      portfolio ++ [{ symbol := trade.symbol, quantity := trade.quantity,
                      avgPrice := trade.price }] := by
  simp [updatePortfolio, hbuy, find?_symbol_none trade.symbol portfolio hfresh]

theorem updatePortfolio_next_buy (trade : Trade) (portfolio : List Position) (pos : Position)
    (hfresh : ∀ p ∈ portfolio, p.symbol ≠ trade.symbol) (hpos : pos.symbol = trade.symbol)
    (hbuy : trade.type = "BUY") :
    updatePortfolio (portfolio ++ [pos]) trade =
      portfolio ++ [{ pos with
        quantity := pos.quantity + trade.quantity,
        avgPrice := ((pos.quantity * pos.avgPrice) + (trade.quantity * trade.price))
          / (pos.quantity + trade.quantity) }] := by
  have hsome : ((portfolio ++ [pos]).find? (fun p => p.symbol = trade.symbol)).isSome = true := by
    rw [List.find?_isSome]
    exact ⟨pos, by simp, by simpa using hpos⟩
  simp only [updatePortfolio, hbuy, hsome, if_true]
  exact applyBuyToExisting_append trade portfolio pos hfresh hpos

theorem foldl_updatePortfolio_buys (sym : String) (portfolio : List Position)
    (hfresh : ∀ p ∈ portfolio, p.symbol ≠ sym) (ts : List Trade) (fills : List (ℕ × ℚ))
    (hts : List.Forall₂ (IsBuyOf sym) ts fills) (Q V : ℚ) (hQ : 0 < Q) :
    ts.foldl updatePortfolio (portfolio ++ [⟨sym, .fin Q, .fin (V / Q)⟩]) =
      portfolio ++ [⟨sym, .fin (Q + (fills.map (fun f => (f.1 : ℚ))).sum),
        .fin ((V + (fills.map (fun f => (f.1 : ℚ) * f.2)).sum)
          / (Q + (fills.map (fun f => (f.1 : ℚ))).sum))⟩] := by
  induction hts generalizing Q V with
  | nil => simp
  | @cons t f ts fills h _ ih =>
      obtain ⟨hsym, hbuy, hq, hp, hqpos, _⟩ := h
      have hq0 : (0 : ℚ) < f.1 := by exact_mod_cast hqpos
      have hfresh' : ∀ p ∈ portfolio, p.symbol ≠ t.symbol := by rw [hsym]; exact hfresh
      rw [List.foldl_cons,
        updatePortfolio_next_buy t portfolio ⟨sym, .fin Q, .fin (V / Q)⟩ hfresh' hsym.symm hbuy]
      have hne : Q + (f.1 : ℚ) ≠ 0 := by positivity
      have hstep : Q * (V / Q) + (f.1 : ℚ) * f.2 = V + (f.1 : ℚ) * f.2 := by
        field_simp
      simp only [hq, hp, JSNum.fin_add_fin, JSNum.fin_mul_fin, JSNum.fin_div_fin _ _ hne, hstep]
      rw [ih (Q + f.1) (V + f.1 * f.2) (by positivity)]
      simp [add_assoc]

/-- C1: a non-empty run of purchases of one symbol, each of a positive whole
quantity at a positive price, applied in order by `updatePortfolio` to a
portfolio without a position for the symbol, leaves exactly one position for
it, appended to the portfolio: its quantity is the sum of the quantities and
its average price the quantity-weighted mean of the prices. -/
theorem updatePortfolio_buy_sequence (sym : String) (portfolio : List Position)
    (ts : List Trade) (fills : List (ℕ × ℚ))
    (hfresh : ∀ p ∈ portfolio, p.symbol ≠ sym)
    (hne : ts ≠ [])
    (hts : List.Forall₂ (IsBuyOf sym) ts fills) :
    ts.foldl updatePortfolio portfolio =
        portfolio ++ [⟨sym, .fin (fills.map (fun f => (f.1 : ℚ))).sum,
          .fin ((fills.map (fun f => (f.1 : ℚ) * f.2)).sum
            / (fills.map (fun f => (f.1 : ℚ))).sum)⟩] ∧
      (ts.foldl updatePortfolio portfolio).find? (fun p => p.symbol = sym) =
        some ⟨sym, .fin (fills.map (fun f => (f.1 : ℚ))).sum,
          .fin ((fills.map (fun f => (f.1 : ℚ) * f.2)).sum
            / (fills.map (fun f => (f.1 : ℚ))).sum)⟩ := by
  have key : ts.foldl updatePortfolio portfolio =
      portfolio ++ [⟨sym, .fin (fills.map (fun f => (f.1 : ℚ))).sum,
        .fin ((fills.map (fun f => (f.1 : ℚ) * f.2)).sum
          / (fills.map (fun f => (f.1 : ℚ))).sum)⟩] := by
    cases hts with
    | nil => exact absurd rfl hne
    | @cons t f ts fills h htl =>
        obtain ⟨hsym, hbuy, hq, hp, hqpos, _⟩ := h
        have hq0 : (0 : ℚ) < f.1 := by exact_mod_cast hqpos
        have hfresh' : ∀ p ∈ portfolio, p.symbol ≠ t.symbol := by rw [hsym]; exact hfresh
        have hprice : f.2 = (f.1 : ℚ) * f.2 / f.1 := by field_simp
        rw [List.foldl_cons, updatePortfolio_first_buy t portfolio hfresh' hbuy, hsym, hq, hp,
          hprice, foldl_updatePortfolio_buys sym portfolio hfresh ts fills htl _ _ hq0]
        simp
  refine ⟨key, ?_⟩
  rw [key, List.find?_append, find?_symbol_none sym portfolio hfresh]
  simp

/-- C1, at the purchases of the specification: AAPL 10 at 150 then 5 at 180,
into a portfolio without the symbol, give quantity 15 at average 160. -/
theorem updatePortfolio_buy_sequence_witness :
    ([⟨1, "AAPL", "BUY", .fin 10, .fin 150, "2025-07-20"⟩,
      ⟨2, "AAPL", "BUY", .fin 5, .fin 180, "2025-07-21"⟩].foldl updatePortfolio
        []).find? (fun p => p.symbol = "AAPL") =
      some ⟨"AAPL", .fin 15, .fin 160⟩ := by
  have hfresh : ∀ p ∈ ([] : List Position), p.symbol ≠ "AAPL" := by simp
  have hts : List.Forall₂ (IsBuyOf "AAPL")
      [⟨1, "AAPL", "BUY", .fin 10, .fin 150, "2025-07-20"⟩,
        ⟨2, "AAPL", "BUY", .fin 5, .fin 180, "2025-07-21"⟩]
      [((10 : ℕ), (150 : ℚ)), ((5 : ℕ), (180 : ℚ))] := by
    refine List.Forall₂.cons ⟨rfl, rfl, ?_, rfl, by decide, by norm_num⟩
      (List.Forall₂.cons ⟨rfl, rfl, ?_, rfl, by decide, by norm_num⟩ List.Forall₂.nil)
    · norm_num
    · norm_num
  have h := (updatePortfolio_buy_sequence "AAPL" [] _ _ hfresh (by simp) hts).2
  rw [h]
  norm_num

/-! ## Upper-casing within Basic Latin -/

/-- On a string of Basic Latin code points the result of `toUpperCase` is the
same whatever the table. -/
theorem toUpperCase_basicLatin (u : CaseTable) (s : String)
    (h : ∀ c ∈ s.toList, c.toNat < 128) :
    toUpperCase u s = toUpperCase basicLatin s := by
  unfold toUpperCase
  congr 1
  apply List.flatMap_congr
  intro c hc
  simp [upperCodePoint, h c hc]

theorem toUpperCase_BUY (u : CaseTable) : toUpperCase u "BUY" = "BUY" := by
  rw [toUpperCase_basicLatin u "BUY" (by decide)]
  decide

theorem toUpperCase_SELL (u : CaseTable) : toUpperCase u "SELL" = "SELL" := by
  rw [toUpperCase_basicLatin u "SELL" (by decide)]
  decide

theorem callToUpperCase_basicLatin (u : CaseTable) (x : Option JVal)
    (h : ∀ t, x = some (.str t) → ∀ c ∈ t.toList, c.toNat < 128) :
    callToUpperCase u x = callToUpperCase basicLatin x := by
  unfold callToUpperCase
  split
  · next t => rw [toUpperCase_basicLatin u t (h t rfl)]
  · rfl

theorem callToUpperCase_type (u : CaseTable) (type : Option JVal)
    (h : ¬ (type ≠ some (.str "BUY") ∧ type ≠ some (.str "SELL"))) :
    callToUpperCase u type = callToUpperCase basicLatin type := by
  apply callToUpperCase_basicLatin
  intro t ht
  by_cases hb : type = some (.str "BUY")
  · rw [hb] at ht
    cases ht
    decide
  · have hs : type = some (.str "SELL") := by
      by_contra hs
      exact h ⟨hb, hs⟩
    rw [hs] at ht
    cases ht
    decide

/-- A request whose symbol is written in Basic Latin is handled by `server.js`
in the same way whatever the table. -/
theorem postTrades_basicLatin (u : CaseTable) (today : String) (body : Body) (s : State)
    (h : ∀ t, body.symbol = some (.str t) → ∀ c ∈ t.toList, c.toNat < 128) :
    postTrades u today body s = postTrades basicLatin today body s := by
  unfold postTrades
  split_ifs with h1 h2
  · rfl
  · rfl
  · rw [callToUpperCase_basicLatin u body.symbol h, callToUpperCase_type u body.type h2]

/-- A request whose symbol is written in Basic Latin is handled by
`server-harperdb.js` in the same way whatever the table. -/
theorem postTradesDB_basicLatin (u : CaseTable) (now : Nat) (today : String) (net : Net)
    (body : Body) (db : DB)
    (h : ∀ t, body.symbol = some (.str t) → ∀ c ∈ t.toList, c.toNat < 128) :
    postTradesDB u now today net body db = postTradesDB basicLatin now today net body db := by
  unfold postTradesDB
  split_ifs with h1 h2 h3 <;>
    first
    | rfl
    | rw [callToUpperCase_basicLatin u body.symbol h, callToUpperCase_type u body.type h2]

/-! ## Validation in `POST /trades` -/

theorem status_of_missing (u : CaseTable) (today : String) (body : Body) (s : State)
    (h : (!truthy body.symbol || !truthy body.type || !truthy body.quantity
      || !truthy body.price) = true) :
    postTrades u today body s =
      (.error 400 "Missing required fields: symbol, type, quantity, price", s) := by
  simp only [postTrades, h, if_true]

theorem statusDB_of_missing (u : CaseTable) (now : Nat) (today : String) (net : Net)
    (body : Body) (db : DB)
    (h : (!truthy body.symbol || !truthy body.type || !truthy body.quantity
      || !truthy body.price) = true) :
    postTradesDB u now today net body db = (.error 400 "Missing required fields", db) := by
  simp only [postTradesDB, h, if_true]

theorem type_ne_of_not_buyOrSell (u : CaseTable) (type : Option JVal)
    (h : isBuyOrSellIgnoringCase u type = false) :
    type ≠ some (.str "BUY") ∧ type ≠ some (.str "SELL") := by
  constructor <;>
    (intro heq; rw [heq] at h; simp [isBuyOrSellIgnoringCase, toUpperCase_BUY, toUpperCase_SELL] at h)

theorem status_of_bad_type (u : CaseTable) (today : String) (body : Body) (s : State)
    (h : body.type ≠ some (.str "BUY") ∧ body.type ≠ some (.str "SELL")) :
    (postTrades u today body s).1.status = 400 ∧ (postTrades u today body s).2 = s := by
  unfold postTrades
  split_ifs <;> simp [Response.status]

theorem statusDB_of_bad_type (u : CaseTable) (now : Nat) (today : String) (net : Net)
    (body : Body) (db : DB)
    (h : body.type ≠ some (.str "BUY") ∧ body.type ≠ some (.str "SELL")) :
    (postTradesDB u now today net body db).1.status = 400 ∧
      (postTradesDB u now today net body db).2 = db := by
  unfold postTradesDB
  split_ifs <;> simp [DBResponse.status]

/-- C2: a `POST /trades` body that lacks one of `symbol`, `type`, `quantity`,
`price`, or whose `type` is not `BUY` or `SELL` ignoring letter case, is
answered 400 and nothing is changed: by `server.js` neither array, by
`server-harperdb.js` neither table. -/
theorem postTrades_rejects_missing_or_bad_type (u : CaseTable) (now : Nat) (today : String)
    (net : Net)
    (body : Body) (s : State) (db : DB)
    (h : body.symbol = none ∨ body.type = none ∨ body.quantity = none ∨ body.price = none ∨
      isBuyOrSellIgnoringCase u body.type = false) :
    ((postTrades u today body s).1.status = 400 ∧ (postTrades u today body s).2 = s) ∧
      ((postTradesDB u now today net body db).1.status = 400 ∧
        (postTradesDB u now today net body db).2 = db) := by
  have hcases : (!truthy body.symbol || !truthy body.type || !truthy body.quantity
        || !truthy body.price) = true ∨
      (body.type ≠ some (.str "BUY") ∧ body.type ≠ some (.str "SELL")) := by
    rcases h with h | h | h | h | h
    · left; simp [h, truthy]
    · left; simp [h, truthy]
    · left; simp [h, truthy]
    · left; simp [h, truthy]
    · right; exact type_ne_of_not_buyOrSell u _ h
  rcases hcases with h | h
  · rw [status_of_missing u today body s h, statusDB_of_missing u now today net body db h]
    simp [Response.status, DBResponse.status]
  · exact ⟨status_of_bad_type u today body s h, statusDB_of_bad_type u now today net body db h⟩

/-- C2, at a body without `price` sent to the initial arrays and an empty store. -/
theorem postTrades_rejects_missing_or_bad_type_witness :
    ((postTrades basicLatin "2025-07-22"
          ⟨some (.str "AAPL"), some (.str "BUY"), some (.num 10), none⟩ initialState).1.status = 400 ∧
        (postTrades basicLatin "2025-07-22"
          ⟨some (.str "AAPL"), some (.str "BUY"), some (.num 10), none⟩ initialState).2
          = initialState) ∧
      ((postTradesDB basicLatin 1753142400000 "2025-07-22" ⟨true, true, true⟩
          ⟨some (.str "AAPL"), some (.str "BUY"), some (.num 10), none⟩ ⟨[], []⟩).1.status = 400 ∧
        (postTradesDB basicLatin 1753142400000 "2025-07-22" ⟨true, true, true⟩
          ⟨some (.str "AAPL"), some (.str "BUY"), some (.num 10), none⟩ ⟨[], []⟩).2 = ⟨[], []⟩) :=
  postTrades_rejects_missing_or_bad_type basicLatin 1753142400000 "2025-07-22" ⟨true, true, true⟩
    ⟨some (.str "AAPL"), some (.str "BUY"), some (.num 10), none⟩ initialState ⟨[], []⟩
    (Or.inr (Or.inr (Or.inr (Or.inl rfl))))

/-! ## Accepted requests -/

theorem postTrades_accepted (u : CaseTable) (today : String) (body : Body) (s : State)
    (sym ty : String)
    (q p : JSNum)
    (hsym : body.symbol = some (.str sym)) (hsymne : sym ≠ "")
    (hty : body.type = some (.str ty)) (hty2 : ty = "BUY" ∨ ty = "SELL")
    (hq : truthy body.quantity = true) (hp : truthy body.price = true)
    (hqv : parseInt body.quantity = some q) (hpv : parseFloat body.price = some p) :
    postTrades u today body s =
      (.created 201 "Trade recorded successfully"
          ⟨s.trades.length + 1, toUpperCase u sym, ty, q, p, today⟩,
        { portfolio := updatePortfolio s.portfolio
            ⟨s.trades.length + 1, toUpperCase u sym, ty, q, p, today⟩,
          trades := s.trades ++ [⟨s.trades.length + 1, toUpperCase u sym, ty, q, p, today⟩] }) := by
  have hup : toUpperCase u ty = ty := by
    rcases hty2 with h | h
    · rw [h]; exact toUpperCase_BUY u
    · rw [h]; exact toUpperCase_SELL u
  have htype : ¬ (body.type ≠ some (.str "BUY") ∧ body.type ≠ some (.str "SELL")) := by
    rcases hty2 with h | h <;> simp [hty, h]
  have hmiss : (!truthy body.symbol || !truthy body.type || !truthy body.quantity
      || !truthy body.price) = false := by
    have hty0 : ty ≠ "" := by
      rcases hty2 with h | h <;> (rw [h]; decide)
    have h1 : truthy body.symbol = true := by simp [hsym, truthy, hsymne]
    have h2 : truthy body.type = true := by simp [hty, truthy, hty0]
    simp [h1, h2, hq, hp]
  unfold postTrades
  rw [if_neg (by simp [hmiss]), if_neg htype]
  simp only [hsym, hty, callToUpperCase, hqv, hpv, hup]

/-- C3 fails on the code: the body of the specification, whose type is `buy` in
lower case (equal to `BUY` ignoring case), is answered 400 `Type must be BUY or
SELL` by both servers, in every state, and nothing is recorded. -/
theorem postTrades_lowercase_type_rejected (u : CaseTable) (now : Nat) (today : String)
    (net : Net) (s : State) (db : DB) :
    isBuyOrSellIgnoringCase u (some (.str "buy")) = true ∧
      postTrades u today
        ⟨some (.str "aapl"), some (.str "buy"), some (.str "10"), some (.str "150")⟩ s =
        (.error 400 "Type must be BUY or SELL", s) ∧
      postTradesDB u now today net
        ⟨some (.str "aapl"), some (.str "buy"), some (.str "10"), some (.str "150")⟩ db =
        (.error 400 "Type must be BUY or SELL", db) := by
  refine ⟨?_, ?_, ?_⟩
  · have h : toUpperCase u "buy" = "BUY" := by
      rw [toUpperCase_basicLatin u "buy" (by decide)]
      decide
    simp [isBuyOrSellIgnoringCase, h]
  · simp [postTrades, truthy]
  · simp [postTradesDB, truthy]

/-- C4: a `SELL` request that is accepted appends exactly its trade to the
ledger and leaves the portfolio as it was. -/
theorem postTrades_sell_leaves_portfolio (u : CaseTable) (today : String) (body : Body)
    (s : State)
    (sym : String) (q p : JSNum)
    (hsym : body.symbol = some (.str sym)) (hsymne : sym ≠ "")
    (hty : body.type = some (.str "SELL"))
    (hq : truthy body.quantity = true) (hp : truthy body.price = true)
    (hqv : parseInt body.quantity = some q) (hpv : parseFloat body.price = some p) :
    (postTrades u today body s).1.status = 201 ∧
      (postTrades u today body s).2.trades =
        s.trades ++ [⟨s.trades.length + 1, toUpperCase u sym, "SELL", q, p, today⟩] ∧
      (postTrades u today body s).2.portfolio = s.portfolio := by
  rw [postTrades_accepted u today body s sym "SELL" q p hsym hsymne hty (Or.inr rfl) hq hp hqv hpv]
  refine ⟨rfl, rfl, ?_⟩
  simp [updatePortfolio]

/-- C4, at a sale of 4 AAPL at 170 sent to the initial arrays. -/
theorem postTrades_sell_leaves_portfolio_witness :
    (postTrades basicLatin "2025-07-22"
        ⟨some (.str "aapl"), some (.str "SELL"), some (.num 4), some (.str "170")⟩
        initialState).1.status = 201 ∧
      (postTrades basicLatin "2025-07-22"
        ⟨some (.str "aapl"), some (.str "SELL"), some (.num 4), some (.str "170")⟩
        initialState).2.trades =
        initialState.trades ++ [⟨initialState.trades.length + 1, toUpperCase basicLatin "aapl", "SELL",
          .fin 4, .fin 170, "2025-07-22"⟩] ∧
      (postTrades basicLatin "2025-07-22"
        ⟨some (.str "aapl"), some (.str "SELL"), some (.num 4), some (.str "170")⟩
        initialState).2.portfolio = initialState.portfolio :=
  postTrades_sell_leaves_portfolio basicLatin "2025-07-22"
    ⟨some (.str "aapl"), some (.str "SELL"), some (.num 4), some (.str "170")⟩
    initialState "aapl" (.fin 4) (.fin 170) rfl (by decide) rfl
    (by decide!) (by decide) (by decide!) (by decide!)

/-! ## `GET /trades` and `GET /portfolio` -/

/-- C5 fails on the code: with the two trades `server.js` starts with, dated
2025-07-20 and 2025-07-21, `GET /trades` returns the 2025-07-20 trade first. -/
theorem getTrades_initial_in_insertion_order :
    (getTrades initialState).map (fun t => (t.id, t.date)) =
      [(1, "2025-07-20"), (2, "2025-07-21")] := by
  decide

theorem totalValue_foldl (portfolio : List Position) (acc : JSNum) :
    portfolio.foldl (fun sum stock => sum + (stock.quantity * stock.avgPrice)) acc =
      acc + (portfolio.map (fun p => p.quantity * p.avgPrice)).sum := by
  induction portfolio generalizing acc with
  | nil =>
      show acc = JSNum.add acc (JSNum.fin 0)
      cases acc <;> simp [JSNum.add]
  | cons p rest ih =>
      rw [List.foldl_cons, ih, List.map_cons, List.sum_cons, JSNum.plus_assoc]

/-- C6, as the code has it: the `totalValue` of `GET /portfolio` is the sum of
`quantity * avgPrice` over all positions of the portfolio, whatever their
quantity. -/
theorem getPortfolio_totalValue_all_positions (s : State) :
    (getPortfolio s).2 = (s.portfolio.map (fun p => p.quantity * p.avgPrice)).sum := by
  show totalValue s.portfolio = _
  unfold totalValue
  rw [totalValue_foldl, JSNum.zero_plus]

/-- C6 fails as stated, whatever the table: after a purchase of -5 NVDA at 10
is recorded, the portfolio holds a position of quantity -5 and `totalValue` is
5100, while the sum over the positions of positive quantity is 5150. -/
theorem getPortfolio_totalValue_counts_negative :
    ¬ ∃ u : CaseTable, ∀ s : State, Reachable u s →
      (getPortfolio s).2 = specTotalValue s.portfolio := by
  rintro ⟨u, h⟩
  have h1 := h _ (Reachable.post "2025-07-22"
    ⟨some (.str "NVDA"), some (.str "BUY"), some (.str "-5"), some (.str "10")⟩
    initialState Reachable.init)
  rw [postTrades_basicLatin u _ _ _ (by intro t ht; cases ht; decide)] at h1
  revert h1
  decide!

/-! ## What the validation lets through -/

/-- C7, as the code has it: a `POST /trades` whose `quantity` or `price` is
absent or falsy (`null`, `false`, the number 0, the empty string) is answered
400 and nothing is changed, by either server. -/
theorem postTrades_rejects_falsy_quantity_or_price (u : CaseTable) (now : Nat)
    (today : String) (net : Net)
    (body : Body) (s : State) (db : DB)
    (h : truthy body.quantity = false ∨ truthy body.price = false) :
    ((postTrades u today body s).1.status = 400 ∧ (postTrades u today body s).2 = s) ∧
      ((postTradesDB u now today net body db).1.status = 400 ∧
        (postTradesDB u now today net body db).2 = db) := by
  have hmiss : (!truthy body.symbol || !truthy body.type || !truthy body.quantity
      || !truthy body.price) = true := by
    rcases h with h | h <;> simp [h]
  rw [status_of_missing u today body s hmiss, statusDB_of_missing u now today net body db hmiss]
  simp [Response.status, DBResponse.status]

/-- C7, at a purchase whose quantity is the number 0. -/
theorem postTrades_rejects_falsy_quantity_or_price_witness :
    ((postTrades basicLatin "2025-07-22"
          ⟨some (.str "AAPL"), some (.str "BUY"), some (.num 0), some (.num 150)⟩
          initialState).1.status = 400 ∧
        (postTrades basicLatin "2025-07-22"
          ⟨some (.str "AAPL"), some (.str "BUY"), some (.num 0), some (.num 150)⟩
          initialState).2 = initialState) ∧
      ((postTradesDB basicLatin 1753142400000 "2025-07-22" ⟨true, true, true⟩
          ⟨some (.str "AAPL"), some (.str "BUY"), some (.num 0), some (.num 150)⟩
          ⟨[], []⟩).1.status = 400 ∧
        (postTradesDB basicLatin 1753142400000 "2025-07-22" ⟨true, true, true⟩
          ⟨some (.str "AAPL"), some (.str "BUY"), some (.num 0), some (.num 150)⟩
          ⟨[], []⟩).2 = ⟨[], []⟩) :=
  postTrades_rejects_falsy_quantity_or_price basicLatin 1753142400000 "2025-07-22" ⟨true, true, true⟩
    ⟨some (.str "AAPL"), some (.str "BUY"), some (.num 0), some (.num 150)⟩ initialState ⟨[], []⟩
    (Or.inl (by decide!))

/-- C7 fails as stated, whatever the table: a purchase of quantity -5 is
answered 201, its trade is appended to the ledger with quantity -5, and the
AAPL position goes from 10 to 5. -/
theorem postTrades_negative_quantity_accepted :
    (∀ u : CaseTable, postTrades u "2025-07-22"
        ⟨some (.str "AAPL"), some (.str "BUY"), some (.num (-5)), some (.num 150)⟩
        initialState =
      (.created 201 "Trade recorded successfully"
          ⟨3, "AAPL", "BUY", .fin (-5), .fin 150, "2025-07-22"⟩,
        { portfolio :=
            [ ⟨"AAPL", .fin 5, .fin 150⟩, ⟨"TSLA", .fin 5, .fin 250⟩,
              ⟨"MSFT", .fin 8, .fin 300⟩ ],
          trades :=
            [ ⟨1, "AAPL", "BUY", .fin 10, .fin 150, "2025-07-20"⟩,
              ⟨2, "TSLA", "BUY", .fin 5, .fin 250, "2025-07-21"⟩,
              ⟨3, "AAPL", "BUY", .fin (-5), .fin 150, "2025-07-22"⟩ ] })) ∧
      JSNum.gtZero (.fin (-5)) = false := by
  refine ⟨fun u => ?_, by decide!⟩
  rw [postTrades_basicLatin u _ _ _ (by intro t ht; cases ht; decide)]
  decide!

/-! ## `server-harperdb.js`: failures of the store -/

theorem postTradesDB_accepted (u : CaseTable) (now : Nat) (today : String) (net : Net)
    (body : Body) (db : DB)
    (sym ty : String) (q p : JSNum)
    (hsym : body.symbol = some (.str sym)) (hsymne : sym ≠ "")
    (hty : body.type = some (.str ty)) (hty2 : ty = "BUY" ∨ ty = "SELL")
    (hq : truthy body.quantity = true) (hp : truthy body.price = true)
    (hqv : parseInt body.quantity = some q) (hpv : parseFloat body.price = some p)
    (hins : net.tradeInsert = true) :
    postTradesDB u now today net body db =
      (.created 201 "Trade recorded successfully"
          ⟨toString now, toUpperCase u sym, ty, q, p, today⟩,
        updatePortfolioInDB net ⟨toString now, toUpperCase u sym, ty, q, p, today⟩
          (insertTradeRow (TradeRecord.toRow
            ⟨toString now, toUpperCase u sym, ty, q, p, today⟩) db)) := by
  have hup : toUpperCase u ty = ty := by
    rcases hty2 with h | h
    · rw [h]; exact toUpperCase_BUY u
    · rw [h]; exact toUpperCase_SELL u
  have htype : ¬ (body.type ≠ some (.str "BUY") ∧ body.type ≠ some (.str "SELL")) := by
    rcases hty2 with h | h <;> simp [hty, h]
  have hmiss : (!truthy body.symbol || !truthy body.type || !truthy body.quantity
      || !truthy body.price) = false := by
    have hty0 : ty ≠ "" := by
      rcases hty2 with h | h <;> (rw [h]; decide)
    have h1 : truthy body.symbol = true := by simp [hsym, truthy, hsymne]
    have h2 : truthy body.type = true := by simp [hty, truthy, hty0]
    simp [h1, h2, hq, hp]
  unfold postTradesDB
  rw [if_neg (by simp [hmiss]), if_neg htype]
  simp only [hsym, hty, callToUpperCase, hqv, hpv, hup, hins, if_true]

theorem updatePortfolioInDB_failed_request (net : Net) (trade : TradeRecord) (db : DB)
    (hfail : net.positionRead = false ∨ net.positionWrite = false) :
    updatePortfolioInDB net trade db = db := by
  unfold updatePortfolioInDB
  rcases hfail with h | h
  · simp [h]
  · cases hw : positionWriteFor trade (selectPosition trade.symbol db) <;> simp [h, hw]

/-- C8, as the code has it: when the insert of the trade succeeds and a store
request of the portfolio update (the read, or the write that follows it) fails,
`POST /trades` of `server-harperdb.js` still answers 201 with the trade; the
trade is in the ledger and the portfolio table is as it was. -/
theorem postTradesDB_portfolio_failure_is_swallowed (u : CaseTable) (now : Nat)
    (today : String) (net : Net)
    (body : Body) (db : DB) (sym : String) (q p : JSNum)
    (hsym : body.symbol = some (.str sym)) (hsymne : sym ≠ "")
    (hty : body.type = some (.str "BUY"))
    (hq : truthy body.quantity = true) (hp : truthy body.price = true)
    (hqv : parseInt body.quantity = some q) (hpv : parseFloat body.price = some p)
    (hnew : ∀ r ∈ db.trades, r.id ≠ toString now)
    (hins : net.tradeInsert = true)
    (hfail : net.positionRead = false ∨ net.positionWrite = false) :
    (postTradesDB u now today net body db).1 =
        .created 201 "Trade recorded successfully"
          ⟨toString now, toUpperCase u sym, "BUY", q, p, today⟩ ∧
      (postTradesDB u now today net body db).2.trades =
        db.trades ++ [⟨toString now, toUpperCase u sym, "BUY", storedNumber q, storedNumber p,
          today⟩] ∧
      (postTradesDB u now today net body db).2.portfolio = db.portfolio := by
  rw [postTradesDB_accepted u now today net body db sym "BUY" q p hsym hsymne hty (Or.inl rfl)
    hq hp hqv hpv hins, updatePortfolioInDB_failed_request net _ _ hfail]
  have hany : db.trades.any (fun r => decide (r.id = toString now)) = false := by
    rw [List.any_eq_false]
    intro r hr
    simpa using hnew r hr
  simp [insertTradeRow, TradeRecord.toRow, hany]

/-- C8, at a purchase of 10 AAPL at 150 whose position read fails, on an empty store. -/
theorem postTradesDB_portfolio_failure_is_swallowed_witness :
    (postTradesDB basicLatin 1753142400000 "2025-07-22" ⟨true, false, true⟩
        ⟨some (.str "AAPL"), some (.str "BUY"), some (.num 10), some (.num 150)⟩ ⟨[], []⟩).1 =
        .created 201 "Trade recorded successfully"
          ⟨toString 1753142400000, toUpperCase basicLatin "AAPL", "BUY", .fin 10, .fin 150,
            "2025-07-22"⟩ ∧
      (postTradesDB basicLatin 1753142400000 "2025-07-22" ⟨true, false, true⟩
        ⟨some (.str "AAPL"), some (.str "BUY"), some (.num 10), some (.num 150)⟩
        ⟨[], []⟩).2.trades =
        [] ++ [⟨toString 1753142400000, toUpperCase basicLatin "AAPL", "BUY", storedNumber (.fin 10),
          storedNumber (.fin 150), "2025-07-22"⟩] ∧
      (postTradesDB basicLatin 1753142400000 "2025-07-22" ⟨true, false, true⟩
        ⟨some (.str "AAPL"), some (.str "BUY"), some (.num 10), some (.num 150)⟩
        ⟨[], []⟩).2.portfolio = [] :=
  postTradesDB_portfolio_failure_is_swallowed basicLatin 1753142400000 "2025-07-22" ⟨true, false, true⟩
    ⟨some (.str "AAPL"), some (.str "BUY"), some (.num 10), some (.num 150)⟩ ⟨[], []⟩
    "AAPL" (.fin 10) (.fin 150) rfl (by decide) rfl (by decide!) (by decide!)
    (by decide!) (by decide!) (by simp) rfl (Or.inl rfl)

/-- C8 fails as stated, whatever the table: a purchase whose trade insert
succeeds and whose position read fails is answered 201, not 500. -/
theorem postTradesDB_failed_read_answers_201 :
    (∀ u : CaseTable, (postTradesDB u 1753142400000 "2025-07-22" ⟨true, false, true⟩
        ⟨some (.str "AAPL"), some (.str "BUY"), some (.num 10), some (.num 150)⟩
        ⟨[], []⟩).1.status = 201) ∧
      ¬ ∃ u : CaseTable, (postTradesDB u 1753142400000 "2025-07-22" ⟨true, false, true⟩
        ⟨some (.str "AAPL"), some (.str "BUY"), some (.num 10), some (.num 150)⟩
        ⟨[], []⟩).1.status = 500 := by
  have h : ∀ u : CaseTable, (postTradesDB u 1753142400000 "2025-07-22" ⟨true, false, true⟩
      ⟨some (.str "AAPL"), some (.str "BUY"), some (.num 10), some (.num 150)⟩
      ⟨[], []⟩).1.status = 201 := by
    intro u
    rw [postTradesDB_basicLatin u _ _ _ _ _ (by intro t ht; cases ht; decide)]
    decide!
  refine ⟨h, ?_⟩
  rintro ⟨u, hu⟩
  rw [h u] at hu
  exact absurd hu (by decide)

/-! ## `server-harperdb.js`: two purchases in flight, and trade ids -/

/-- A call of `updatePortfolioInDB` whose requests all succeed is its two
store requests run one after the other. -/
theorem updatePortfolioInDB_eq_steps (net : Net) (trade : TradeRecord) (db : DB)
    (hread : net.positionRead = true) (hwrite : net.positionWrite = true) :
    updatePortfolioInDB net trade db =
      (stepUpdate trade (stepUpdate trade .start db).1 (stepUpdate trade .start db).2).2 := by
  unfold updatePortfolioInDB
  simp only [hread, hwrite, if_true, stepUpdate]
  cases positionWriteFor trade (selectPosition trade.symbol db) <;> rfl

/-- C9 fails on the code: for purchases of 10 AAPL at 150 and 5 AAPL at 180 on
an empty portfolio table, when both calls of `updatePortfolioInDB` read before
either writes, the table ends with 10 at 150 (the second purchase is lost);
when the calls run one after the other it ends with 15 at 160. -/
theorem runInterleaved_loses_update :
    runInterleaved
        ⟨"1753142400000", "AAPL", "BUY", .fin 10, .fin 150, "2025-07-22"⟩
        ⟨"1753142400001", "AAPL", "BUY", .fin 5, .fin 180, "2025-07-22"⟩
        [false, true, false, true] (.start, .start, ⟨[], []⟩) =
      (.finished, .finished, ⟨[], [⟨"AAPL", some 10, some 150⟩]⟩) ∧
    runInterleaved
        ⟨"1753142400000", "AAPL", "BUY", .fin 10, .fin 150, "2025-07-22"⟩
        ⟨"1753142400001", "AAPL", "BUY", .fin 5, .fin 180, "2025-07-22"⟩
        [false, false, true, true] (.start, .start, ⟨[], []⟩) =
      (.finished, .finished, ⟨[], [⟨"AAPL", some 15, some 160⟩]⟩) := by
  decide!

/-- C10 fails on the code, whatever the table: two purchases sent to
`server-harperdb.js` at the same `Date.now()` reading are both answered 201
with the same id, and the ledger holds one row for the two of them. -/
theorem postTradesDB_same_millisecond_same_id (u : CaseTable) :
    postTradesDB u 1753142400000 "2025-07-22" ⟨true, true, true⟩
        ⟨some (.str "AAPL"), some (.str "BUY"), some (.num 10), some (.num 150)⟩ ⟨[], []⟩ =
      (.created 201 "Trade recorded successfully"
          ⟨"1753142400000", "AAPL", "BUY", .fin 10, .fin 150, "2025-07-22"⟩,
        ⟨[⟨"1753142400000", "AAPL", "BUY", some 10, some 150, "2025-07-22"⟩],
          [⟨"AAPL", some 10, some 150⟩]⟩) ∧
    postTradesDB u 1753142400000 "2025-07-22" ⟨true, true, true⟩
        ⟨some (.str "TSLA"), some (.str "BUY"), some (.num 5), some (.num 250)⟩
        ⟨[⟨"1753142400000", "AAPL", "BUY", some 10, some 150, "2025-07-22"⟩],
          [⟨"AAPL", some 10, some 150⟩]⟩ =
      (.created 201 "Trade recorded successfully"
          ⟨"1753142400000", "TSLA", "BUY", .fin 5, .fin 250, "2025-07-22"⟩,
        ⟨[⟨"1753142400000", "AAPL", "BUY", some 10, some 150, "2025-07-22"⟩],
          [⟨"AAPL", some 10, some 150⟩, ⟨"TSLA", some 5, some 250⟩]⟩) := by
  rw [postTradesDB_basicLatin u _ _ _ _ ⟨[], []⟩ (by intro t ht; cases ht; decide),
    postTradesDB_basicLatin u _ _ _ _ ⟨[_], _⟩ (by intro t ht; cases ht; decide)]
  decide!

end Trading
